import Mathlib

/-
Shallow embedding of the envload struct-population engine (src/env.go).

The engine takes a flat string-to-string source mapping and a list of
struct fields (each with env/default/required tags, a writability flag and
a semantic type) and resolves, validates and converts a raw string value
for every field in declaration order. Definitions below mirror the Go
source function by function: resolveValue, isRequired, the scalar setters
(setInt, setUint, setBool, setString), setSlice with its per-element
helpers, setMap with convertMapValue, and the populateStruct loop.
Go machine integers are modelled as Nat/Int with explicit range checks or
reduction mod 2^w exactly where the source checks or wraps.
-/

namespace Envload

/-- Whitespace predicate used by the model of strings.TrimSpace (ASCII
whitespace set: space, tab, newline, vertical tab, form feed, carriage
return). -/
def isSpaceChar (c : Char) : Bool :=
  c = ' ' || c = '\t' || c = '\n' || c = '\x0b' || c = '\x0c' || c = '\r'

/-- Model of strings.TrimSpace: drop whitespace from both ends. -/
def trimSpace (s : String) : String :=
  String.mk (((s.data.dropWhile isSpaceChar).reverse.dropWhile isSpaceChar).reverse)

/-- Helper for [splitComma]: accumulates the current part (reversed). -/
def splitCommaAux : List Char → List Char → List String
  | [], acc => [String.mk acc.reverse]
  | c :: rest, acc =>
    if c = ',' then String.mk acc.reverse :: splitCommaAux rest []
    else splitCommaAux rest (c :: acc)

/-- Model of strings.Split(s, ",") : always returns at least one part;
the empty string yields one empty part. -/
def splitComma (s : String) : List String :=
  splitCommaAux s.data []

/-- Helper for [splitN2Colon]: split a character list at the first colon.
Returns none when no colon occurs. -/
def splitFirstColon : List Char → Option (List Char × List Char)
  | [] => none
  | c :: rest =>
    if c = ':' then some ([], rest)
    else
      match splitFirstColon rest with
      | none => none
      | some (a, b) => some (c :: a, b)

/-- Model of strings.SplitN(s, ":", 2): the source checks len(kv) == 2,
which holds exactly when the string contains a colon; none models the
one-part (malformed) outcome. -/
def splitN2Colon (s : String) : Option (String × String) :=
  match splitFirstColon s.data with
  | none => none
  | some (a, b) => some (String.mk a, String.mk b)

/-- Reads a nonempty all-digit character list as a Nat; none on empty
input or any non-digit, as strconv rejects both in base 10. -/
def digitsToNat? : List Char → Option Nat
  | [] => none
  | cs => cs.foldlM (fun acc c =>
      if c.isDigit then some (acc * 10 + (c.toNat - 48)) else none) 0

/-- Model of strconv.ParseUint(s, 10, bits): no sign accepted; digits
only; value must fit in bits unsigned bits. -/
def goParseUint (s : String) (bits : Nat) : Option Nat :=
  match digitsToNat? s.data with
  | none => none
  | some n => if n < 2 ^ bits then some n else none

/-- Model of strconv.ParseInt(s, 10, bits): optional leading sign, then
digits; value must lie in the signed range of the given width. -/
def goParseInt (s : String) (bits : Nat) : Option Int :=
  let (neg, rest) :=
    match s.data with
    | '+' :: cs => (false, cs)
    | '-' :: cs => (true, cs)
    | cs => (false, cs)
  match digitsToNat? rest with
  | none => none
  | some n =>
    let v : Int := if neg then -(n : Int) else (n : Int)
    if -(2 ^ (bits - 1) : Int) ≤ v ∧ v < (2 ^ (bits - 1) : Int) then some v
    else none

/-- Model of strconv.ParseBool: the exact literal set Go accepts. -/
def goParseBool (s : String) : Option Bool :=
  if s = "1" || s = "t" || s = "T" || s = "TRUE" || s = "true" || s = "True" then
    some true
  else if s = "0" || s = "f" || s = "F" || s = "FALSE" || s = "false" || s = "False" then
    some false
  else none

/-- Reflect kind of a slice element or map key/value: the kinds the
converters dispatch on, plus a constructor for every other kind (the
default branches of the source switches). -/
inductive Kind where
  | str
  | int (bits : Nat)
  | uint (bits : Nat)
  | bool
  | unsupported
  deriving DecidableEq, Repr

/-- Semantic type of a struct field, mirroring the dispatch in setValue. -/
inductive FieldType where
  | str
  | int (bits : Nat)
  | uint (bits : Nat)
  | bool
  | slice (elem : Kind)
  | mapTy (keyIsString : Bool) (value : Kind)
  | unsupported
  deriving DecidableEq, Repr

/-- Static description of one struct field: name, the env / default /
required struct tags (empty string models an absent tag), the
writability of its storage slot, and its semantic type. -/
structure Field where
  name : String
  envTag : String
  defaultTag : String
  requiredTag : String
  canSet : Bool
  ftype : FieldType
  deriving DecidableEq, Repr

/-- Scalar runtime value stored in a field, a slice element or a map
value. -/
inductive Scalar where
  | str (s : String)
  | int (i : Int)
  | uint (n : Nat)
  | bool (b : Bool)
  deriving DecidableEq, Repr

/-- Runtime value of a field: a scalar, a slice, or a string-keyed map
(modelled as a key-unique association list). -/
inductive Value where
  | scalar (v : Scalar)
  | list (l : List Scalar)
  | map (m : List (String × Scalar))
  deriving DecidableEq, Repr

/-- Cause carried by a map value conversion failure: the underlying
parse error, or the unsupported-value-type error value. -/
inductive MapValCause where
  | parseError
  | unsupportedType
  deriving DecidableEq, Repr

/-- Errors populateStruct can return for a field (the target-validation
errors concern the destination argument, not fields, and are outside
this embedding). -/
inductive Err where
  | missingRequiredField (field env : String)
  | invalidInt (field : String)
  | invalidUint (field : String)
  | invalidBool (field : String)
  | invalidIntInSlice (field : String) (index : Nat)
  | invalidUintInSlice (field : String) (index : Nat)
  | invalidBoolInSlice (field : String) (index : Nat)
  | invalidMapFormat (field pair : String)
  | invalidMapValue (field key : String) (cause : MapValCause)
  deriving DecidableEq, Repr

/-- Source mapping: environment key-value pairs (keys unique). -/
abbrev EnvMap := List (String × String)

/-- Model of fieldResolver.resolveValue: empty raw when the env tag is
absent or the slot is not writable; else the mapping value when the key
is present (even an empty one); else the default tag. -/
def resolveValue (envMap : EnvMap) (f : Field) : String :=
  if f.envTag = "" ∨ f.canSet = false then ""
  else
    match envMap.lookup f.envTag with
    | some v => v
    | none => f.defaultTag

/-- Model of fieldResolver.isRequired: the required tag equals the exact
string true. -/
def isRequired (f : Field) : Bool :=
  f.requiredTag = "true"

/-- Two-complement wraparound of an Int into a signed width, modelling
reflect.Value.Convert from int64 to a narrower signed type. -/
def intWrap (i : Int) (bits : Nat) : Int :=
  let m : Int := 2 ^ bits
  let r := i % m
  if r < m / 2 then r else r - m

/-- Wraparound of a Nat into an unsigned width, modelling
reflect.Value.Convert from uint64 to a narrower unsigned type. -/
def uintWrap (n : Nat) (bits : Nat) : Nat :=
  n % 2 ^ bits

/-- Model of fieldResolver.convertMapValue: dispatch on the map value
kind; integers parse at 64-bit width and are then converted (wrapping)
to the declared width; the default branch returns the unsupported-type
error. -/
def convertMapValue (value : String) (k : Kind) : Except MapValCause Scalar :=
  match k with
  | .str => .ok (.str value)
  | .int bits =>
    match goParseInt value 64 with
    | some i => .ok (.int (intWrap i bits))
    | none => .error .parseError
  | .uint bits =>
    match goParseUint value 64 with
    | some n => .ok (.uint (uintWrap n bits))
    | none => .error .parseError
  | .bool =>
    match goParseBool value with
    | some b => .ok (.bool b)
    | none => .error .parseError
  | .unsupported => .error .unsupportedType

/-- Model of result.SetMapIndex on a Go map: key-unique insertion, a
later binding replacing any earlier one. -/
def mapInsert (m : List (String × Scalar)) (k : String) (v : Scalar) :
    List (String × Scalar) :=
  m.filter (fun p => p.1 ≠ k) ++ [(k, v)]

/-- Model of the pair loop of fieldResolver.setMap: trim each pair,
split on the first colon (error when absent), trim key and value,
convert the value, insert last-write-wins. -/
def setMapPairs (fname : String) (valueKind : Kind) :
    List String → List (String × Scalar) → Except Err (List (String × Scalar))
  | [], acc => .ok acc
  | pair :: rest, acc =>
    match splitN2Colon (trimSpace pair) with
    | none => .error (.invalidMapFormat fname pair)
    | some (k, v) =>
      let key := trimSpace k
      let value := trimSpace v
      match convertMapValue value valueKind with
      | .error c => .error (.invalidMapValue fname key c)
      | .ok sv => setMapPairs fname valueKind rest (mapInsert acc key sv)

/-- Model of fieldResolver.setMap: skip (old value kept) when the key
kind is not string; otherwise build a fresh map from the comma-separated
pairs and write it only on full success. -/
def setMap (f : Field) (raw : String) (keyIsString : Bool) (valueKind : Kind)
    (old : Value) : Except Err Value :=
  if keyIsString = false then .ok old
  else
    match setMapPairs f.name valueKind (splitComma raw) [] with
    | .error e => .error e
    | .ok m => .ok (.map m)

/-- Model of the element loop of fieldResolver.setIntSlice over the
already-filtered nonempty parts, with sequential indices. -/
def setIntSliceAux (fname : String) (bits : Nat) :
    List String → Nat → Except Err (List Scalar)
  | [], _ => .ok []
  | p :: rest, i =>
    match goParseInt p bits with
    | none => .error (.invalidIntInSlice fname i)
    | some v =>
      match setIntSliceAux fname bits rest (i + 1) with
      | .error e => .error e
      | .ok l => .ok (.int v :: l)

/-- Model of the element loop of fieldResolver.setUintSlice. -/
def setUintSliceAux (fname : String) (bits : Nat) :
    List String → Nat → Except Err (List Scalar)
  | [], _ => .ok []
  | p :: rest, i =>
    match goParseUint p bits with
    | none => .error (.invalidUintInSlice fname i)
    | some v =>
      match setUintSliceAux fname bits rest (i + 1) with
      | .error e => .error e
      | .ok l => .ok (.uint v :: l)

/-- Model of the element loop of fieldResolver.setBoolSlice. -/
def setBoolSliceAux (fname : String) :
    List String → Nat → Except Err (List Scalar)
  | [], _ => .ok []
  | p :: rest, i =>
    match goParseBool p with
    | none => .error (.invalidBoolInSlice fname i)
    | some v =>
      match setBoolSliceAux fname rest (i + 1) with
      | .error e => .error e
      | .ok l => .ok (.bool v :: l)

/-- Model of fieldResolver.setSlice: split on commas, trim every part;
string slices take all trimmed parts verbatim; numeric and boolean
slices first filter out empty parts, then parse each remaining part;
unsupported element kinds are skipped (old value kept). -/
def setSlice (f : Field) (raw : String) (elem : Kind) (old : Value) :
    Except Err Value :=
  let parts := (splitComma raw).map trimSpace
  match elem with
  | .str => .ok (.list (parts.map Scalar.str))
  | .int bits =>
    match setIntSliceAux f.name bits (parts.filter (fun p => p ≠ "")) 0 with
    | .error e => .error e
    | .ok l => .ok (.list l)
  | .uint bits =>
    match setUintSliceAux f.name bits (parts.filter (fun p => p ≠ "")) 0 with
    | .error e => .error e
    | .ok l => .ok (.list l)
  | .bool =>
    match setBoolSliceAux f.name (parts.filter (fun p => p ≠ "")) 0 with
    | .error e => .error e
    | .ok l => .ok (.list l)
  | .unsupported => .ok old

/-- Model of fieldResolver.setValue: dispatch on the field kind; scalar
setters parse at the declared width; the default branch silently skips
(old value kept). -/
def setValue (f : Field) (raw : String) (old : Value) : Except Err Value :=
  match f.ftype with
  | .str => .ok (.scalar (.str raw))
  | .int bits =>
    match goParseInt raw bits with
    | some i => .ok (.scalar (.int i))
    | none => .error (.invalidInt f.name)
  | .uint bits =>
    match goParseUint raw bits with
    | some n => .ok (.scalar (.uint n))
    | none => .error (.invalidUint f.name)
  | .bool =>
    match goParseBool raw with
    | some b => .ok (.scalar (.bool b))
    | none => .error (.invalidBool f.name)
  | .slice elem => setSlice f raw elem old
  | .mapTy keyIsString valueKind => setMap f raw keyIsString valueKind old
  | .unsupported => .ok old

/-- Body of the populateStruct loop for one field: resolve the raw
value, run the required check, skip on empty raw, else convert. -/
def processField (envMap : EnvMap) (f : Field) (v : Value) : Except Err Value :=
  if resolveValue envMap f = "" ∧ isRequired f = true then
    .error (.missingRequiredField f.name f.envTag)
  else if resolveValue envMap f = "" then .ok v
  else setValue f (resolveValue envMap f) v

/-- Destination struct: fields in declaration order with their current
values. -/
abbrev Config := List (Field × Value)

/-- Model of populateStruct: process fields in order, stopping at the
first error; fields from the failing one on keep their prior values. -/
def populateStruct (envMap : EnvMap) : Config → Config × Option Err
  | [] => ([], none)
  | (f, v) :: rest =>
    match processField envMap f v with
    | .error e => ((f, v) :: rest, some e)
    | .ok v2 =>
      let r := populateStruct envMap rest
      ((f, v2) :: r.1, r.2)

/-- Concrete field: required, writable, but with no env tag (C1). -/
def c1Field : Field :=
  { name := "ApiKey", envTag := "", defaultTag := "", requiredTag := "true",
    canSet := true, ftype := .str }

/-- Concrete field: no env tag, not required, with a default (C1 witness). -/
def c1wField : Field :=
  { name := "Hidden", envTag := "", defaultTag := "d", requiredTag := "",
    canSet := true, ftype := .str }

/-- Concrete string-slice field (C2). -/
def c2StrField : Field :=
  { name := "Tags", envTag := "TAGS", defaultTag := "", requiredTag := "",
    canSet := true, ftype := .slice .str }

/-- Concrete 64-bit integer slice field (C2). -/
def c2IntField : Field :=
  { name := "Ports", envTag := "PORTS", defaultTag := "", requiredTag := "",
    canSet := true, ftype := .slice (.int 64) }

/-- Concrete map field with string keys and an unsupported value kind (C3). -/
def c3Field : Field :=
  { name := "Extra", envTag := "EXTRA", defaultTag := "", requiredTag := "",
    canSet := true, ftype := .mapTy true .unsupported }

/-- Concrete map field with string keys (value kind varied per theorem, C4). -/
def c4Field : Field :=
  { name := "Limits", envTag := "LIMITS", defaultTag := "", requiredTag := "",
    canSet := true, ftype := .mapTy true (.int 8) }

/-- Concrete 8-bit signed scalar field (C4 contrast). -/
def c4ScalarField : Field :=
  { name := "Lim", envTag := "LIM", defaultTag := "", requiredTag := "",
    canSet := true, ftype := .int 8 }

/-- Concrete writable string field with env tag, default and no required
flag (C5 witness). -/
def c5Field : Field :=
  { name := "LogPath", envTag := "LOG_PATH", defaultTag := "d", requiredTag := "",
    canSet := true, ftype := .str }

/-- Concrete field processed successfully before the failing one (C6). -/
def c6GoodField : Field :=
  { name := "Good", envTag := "GOOD", defaultTag := "", requiredTag := "",
    canSet := true, ftype := .str }

/-- Concrete required field with no default whose key is absent (C6). -/
def c6ReqField : Field :=
  { name := "Req", envTag := "REQ", defaultTag := "", requiredTag := "true",
    canSet := true, ftype := .str }

/-- Concrete field declared after the failing one (C6). -/
def c6AfterField : Field :=
  { name := "After", envTag := "GOOD", defaultTag := "", requiredTag := "",
    canSet := true, ftype := .str }

/-- Concrete required field with a non-empty default and absent key (C6). -/
def c6DefField : Field :=
  { name := "AppName", envTag := "APP_NAME", defaultTag := "fallback",
    requiredTag := "true", canSet := true, ftype := .str }

/-- Concrete struct for the C6 witness. -/
def c6Config : Config :=
  [(c6GoodField, .scalar (.str "")),
   (c6ReqField, .scalar (.str "")),
   (c6AfterField, .scalar (.str "keep"))]

/-- Concrete 8-bit signed integer field (C7). -/
def c7IntField : Field :=
  { name := "Small", envTag := "SMALL", defaultTag := "", requiredTag := "",
    canSet := true, ftype := .int 8 }

/-- Concrete 8-bit unsigned integer field (C7). -/
def c7UintField : Field :=
  { name := "USmall", envTag := "USMALL", defaultTag := "", requiredTag := "",
    canSet := true, ftype := .uint 8 }

/-- Concrete string-valued map field (C8). -/
def c8Field : Field :=
  { name := "Settings", envTag := "SETTINGS", defaultTag := "", requiredTag := "",
    canSet := true, ftype := .mapTy true .str }

/-- Concrete integer-slice field for the C9 witness. -/
def c9Field : Field :=
  { name := "Nums", envTag := "NUMS", defaultTag := "", requiredTag := "",
    canSet := true, ftype := .slice (.int 64) }

/-- Concrete field whose required tag is the uppercase string TRUE (C10
witness). -/
def c10Field : Field :=
  { name := "Maybe", envTag := "MAYBE", defaultTag := "", requiredTag := "TRUE",
    canSet := true, ftype := .str }

/-- Splitting never yields an empty list of parts. -/
theorem splitCommaAux_ne_nil : ∀ (cs acc : List Char), splitCommaAux cs acc ≠ [] := by
  intro cs
  induction cs with
  | nil => intro acc; simp [splitCommaAux]
  | cons c rest ih =>
    intro acc
    simp only [splitCommaAux]
    split
    · simp
    · exact ih (c :: acc)

/-- Model of strings.Split always returns at least one part. -/
theorem splitComma_ne_nil (s : String) : splitComma s ≠ [] :=
  splitCommaAux_ne_nil s.data []

/-- Integer slice element conversion never produces the missing-required
error. -/
theorem setIntSliceAux_ne_mrf (fname : String) (bits : Nat) (n k : String) :
    ∀ (l : List String) (i : Nat),
      setIntSliceAux fname bits l i ≠ Except.error (Err.missingRequiredField n k) := by
  intro l
  induction l with
  | nil => intro i; simp [setIntSliceAux]
  | cons p rest ih =>
    intro i
    simp only [setIntSliceAux]
    cases goParseInt p bits with
    | none => simp
    | some v =>
      cases hrec : setIntSliceAux fname bits rest (i + 1) with
      | error e =>
        intro h
        exact ih (i + 1) (hrec.trans h)
      | ok l2 => simp

/-- Unsigned slice element conversion never produces the missing-required
error. -/
theorem setUintSliceAux_ne_mrf (fname : String) (bits : Nat) (n k : String) :
    ∀ (l : List String) (i : Nat),
      setUintSliceAux fname bits l i ≠ Except.error (Err.missingRequiredField n k) := by
  intro l
  induction l with
  | nil => intro i; simp [setUintSliceAux]
  | cons p rest ih =>
    intro i
    simp only [setUintSliceAux]
    cases goParseUint p bits with
    | none => simp
    | some v =>
      cases hrec : setUintSliceAux fname bits rest (i + 1) with
      | error e =>
        intro h
        exact ih (i + 1) (hrec.trans h)
      | ok l2 => simp

/-- Boolean slice element conversion never produces the missing-required
error. -/
theorem setBoolSliceAux_ne_mrf (fname : String) (n k : String) :
    ∀ (l : List String) (i : Nat),
      setBoolSliceAux fname l i ≠ Except.error (Err.missingRequiredField n k) := by
  intro l
  induction l with
  | nil => intro i; simp [setBoolSliceAux]
  | cons p rest ih =>
    intro i
    simp only [setBoolSliceAux]
    cases goParseBool p with
    | none => simp
    | some v =>
      cases hrec : setBoolSliceAux fname rest (i + 1) with
      | error e =>
        intro h
        exact ih (i + 1) (hrec.trans h)
      | ok l2 => simp

/-- Map pair conversion never produces the missing-required error. -/
theorem setMapPairs_ne_mrf (fname : String) (vk : Kind) (n k : String) :
    ∀ (pairs : List String) (acc : List (String × Scalar)),
      setMapPairs fname vk pairs acc ≠ Except.error (Err.missingRequiredField n k) := by
  intro pairs
  induction pairs with
  | nil => intro acc; simp [setMapPairs]
  | cons pair rest ih =>
    intro acc
    simp only [setMapPairs]
    split
    · simp
    · split
      · simp
      · exact ih _

/-- Slice conversion never produces the missing-required error. -/
theorem setSlice_ne_mrf (f : Field) (raw : String) (elem : Kind) (old : Value)
    (n k : String) :
    setSlice f raw elem old ≠ Except.error (Err.missingRequiredField n k) := by
  simp only [setSlice]
  split
  · simp
  · split
    · rename_i hrec
      intro h
      injection h with h2
      exact setIntSliceAux_ne_mrf f.name _ n k _ 0 (h2 ▸ hrec)
    · simp
  · split
    · rename_i hrec
      intro h
      injection h with h2
      exact setUintSliceAux_ne_mrf f.name _ n k _ 0 (h2 ▸ hrec)
    · simp
  · split
    · rename_i hrec
      intro h
      injection h with h2
      exact setBoolSliceAux_ne_mrf f.name n k _ 0 (h2 ▸ hrec)
    · simp
  · simp

/-- Map conversion never produces the missing-required error. -/
theorem setMap_ne_mrf (f : Field) (raw : String) (b : Bool) (vk : Kind) (old : Value)
    (n k : String) :
    setMap f raw b vk old ≠ Except.error (Err.missingRequiredField n k) := by
  simp only [setMap]
  split
  · simp
  · split
    · rename_i hrec
      intro h
      injection h with h2
      exact setMapPairs_ne_mrf f.name vk n k _ [] (h2 ▸ hrec)
    · simp

/-- Type conversion never produces the missing-required error: that
error arises only from the required check in the populate loop. -/
theorem setValue_ne_mrf (f : Field) (raw : String) (old : Value) (n k : String) :
    setValue f raw old ≠ Except.error (Err.missingRequiredField n k) := by
  simp only [setValue]
  split
  · simp
  · split <;> simp
  · split <;> simp
  · split <;> simp
  · exact setSlice_ne_mrf f raw _ old n k
  · exact setMap_ne_mrf f raw _ _ old n k
  · simp

/-- Inversion for a missing-required error from one field: it names that
field, and the field resolved to empty raw with its required flag set. -/
theorem processField_mrf (envMap : EnvMap) (f : Field) (v : Value) (n k : String)
    (h : processField envMap f v = Except.error (Err.missingRequiredField n k)) :
    f.name = n ∧ f.envTag = k ∧ resolveValue envMap f = "" ∧ isRequired f = true := by
  simp only [processField] at h
  split at h
  · rename_i hc
    simp only [Except.error.injEq, Err.missingRequiredField.injEq] at h
    exact ⟨h.1, h.2, hc.1, hc.2⟩
  · split at h
    · simp at h
    · exact absurd h (setValue_ne_mrf f (resolveValue envMap f) v n k)

/-- Unfolding of populateStruct when the first field fails: the whole
struct is returned untouched together with the error. -/
theorem populateStruct_error_head (envMap : EnvMap) (f : Field) (v : Value)
    (rest : Config) (e : Err) (h : processField envMap f v = Except.error e) :
    populateStruct envMap ((f, v) :: rest) = ((f, v) :: rest, some e) := by
  simp [populateStruct, h]

/-- Unfolding of populateStruct over a fully-succeeding front segment:
the outcome on the remaining fields is unchanged. -/
theorem populateStruct_ok_front (envMap : EnvMap) :
    ∀ (pre rest : Config),
      (∀ p ∈ pre, ∃ v2, processField envMap p.1 p.2 = Except.ok v2) →
      ∃ pre2 : Config, pre2.length = pre.length ∧
        populateStruct envMap (pre ++ rest) =
          (pre2 ++ (populateStruct envMap rest).1, (populateStruct envMap rest).2) := by
  intro pre
  induction pre with
  | nil =>
    intro rest _
    exact ⟨[], rfl, by simp⟩
  | cons hd tl ih =>
    intro rest h
    obtain ⟨f, v⟩ := hd
    obtain ⟨v2, hv2⟩ := h (f, v) (List.mem_cons_self _ _)
    obtain ⟨pre2, hlen, heq⟩ := ih rest (fun p hp => h p (List.mem_cons_of_mem _ hp))
    refine ⟨(f, v2) :: pre2, by simp [hlen], ?_⟩
    have hstep : populateStruct envMap ((f, v) :: (tl ++ rest)) =
        ((f, v2) :: (populateStruct envMap (tl ++ rest)).1,
         (populateStruct envMap (tl ++ rest)).2) := by
      simp [populateStruct, hv2]
    calc populateStruct envMap (((f, v) :: tl) ++ rest)
        = ((f, v2) :: (populateStruct envMap (tl ++ rest)).1,
           (populateStruct envMap (tl ++ rest)).2) := hstep
      _ = ((f, v2) :: pre2 ++ (populateStruct envMap rest).1,
           (populateStruct envMap rest).2) := by rw [heq]; rfl

/-- Soundness of the missing-required error: it always names a field of
the struct whose raw value is empty and whose required flag is set. -/
theorem populateStruct_mrf_mem (envMap : EnvMap) :
    ∀ (cfg : Config) (n k : String),
      (populateStruct envMap cfg).2 = some (Err.missingRequiredField n k) →
      ∃ p ∈ cfg, p.1.name = n ∧ p.1.envTag = k ∧
        resolveValue envMap p.1 = "" ∧ isRequired p.1 = true := by
  intro cfg
  induction cfg with
  | nil => intro n k h; simp [populateStruct] at h
  | cons hd tl ih =>
    intro n k h
    obtain ⟨f, v⟩ := hd
    cases hp : processField envMap f v with
    | error e =>
      rw [populateStruct_error_head envMap f v tl e hp] at h
      simp only [Option.some.injEq] at h
      subst h
      exact ⟨(f, v), List.mem_cons_self _ _, processField_mrf envMap f v n k hp⟩
    | ok v2 =>
      simp only [populateStruct, hp] at h
      obtain ⟨p, hpmem, hprops⟩ := ih n k h
      exact ⟨p, List.mem_cons_of_mem _ hpmem, hprops⟩

/-- Key-unique insertion keeps keys of the association list free of
duplicates. -/
theorem mapInsert_keys_nodup (m : List (String × Scalar)) (k : String) (v : Scalar)
    (h : (m.map Prod.fst).Nodup) : ((mapInsert m k v).map Prod.fst).Nodup := by
  unfold mapInsert
  rw [List.map_append, List.nodup_append]
  refine ⟨((List.filter_sublist m).map Prod.fst).nodup h, List.nodup_singleton k, ?_⟩
  intro a ha hb
  simp only [List.map_cons, List.map_nil, List.mem_singleton] at hb
  subst hb
  obtain ⟨p, hp, hpa⟩ := List.mem_map.mp ha
  have hne := List.of_mem_filter hp
  simp only [decide_eq_true_eq] at hne
  exact hne hpa

/-- Every map successfully built by the pair loop has duplicate-free
keys, provided the accumulator does. -/
theorem setMapPairs_keys_nodup (fname : String) (vk : Kind) :
    ∀ (pairs : List String) (acc m : List (String × Scalar)),
      (acc.map Prod.fst).Nodup → setMapPairs fname vk pairs acc = Except.ok m →
      (m.map Prod.fst).Nodup := by
  intro pairs
  induction pairs with
  | nil =>
    intro acc m hacc h
    simp only [setMapPairs, Except.ok.injEq] at h
    exact h ▸ hacc
  | cons pair rest ih =>
    intro acc m hacc h
    simp only [setMapPairs] at h
    split at h
    · exact absurd h (by simp)
    · split at h
      · exact absurd h (by simp)
      · exact ih _ m (mapInsert_keys_nodup _ _ _ hacc) h

/-- C1 counterexample: a writable field with no env tag but required tag
set to true makes populateStruct fail with the missing-required error,
so the required check is not skipped for fields without a source key. -/
theorem C1_counterexample :
    (populateStruct [] [(c1Field, Value.scalar (Scalar.str ""))]).2 =
      some (Err.missingRequiredField "ApiKey" "") := rfl

/-- C1 (amended): for every field with no env tag or a non-writable
slot, the raw value resolves to empty (no default applied) and no
conversion runs: a non-required such field is left untouched, but a
required one still fails the required check with MissingRequiredField. -/
theorem C1_no_source_key (envMap : EnvMap) (f : Field) (v : Value)
    (h : f.envTag = "" ∨ f.canSet = false) :
    resolveValue envMap f = "" ∧
    (isRequired f = false → processField envMap f v = Except.ok v) ∧
    (isRequired f = true →
      processField envMap f v =
        Except.error (Err.missingRequiredField f.name f.envTag)) := by
  have hraw : resolveValue envMap f = "" := by
    simp only [resolveValue, if_pos h]
  refine ⟨hraw, ?_, ?_⟩
  · intro hreq
    simp [processField, hraw, hreq]
  · intro hreq
    simp [processField, hraw, hreq]

/-- C1 witness: concrete instantiation of the amended claim at a field
with no env tag, a declared default and the required tag unset. -/
theorem C1_no_source_key_witness :
    resolveValue [("X", "y")] c1wField = "" ∧
    processField [("X", "y")] c1wField (Value.scalar (Scalar.int 5)) =
      Except.ok (Value.scalar (Scalar.int 5)) := by
  have h := C1_no_source_key [("X", "y")] c1wField (Value.scalar (Scalar.int 5))
    (Or.inl rfl)
  exact ⟨h.1, h.2.1 rfl⟩

/-- C2 code evaluation: empty-after-trim parts are dropped for integer
slices but kept as empty-string elements for string slices, so the raw
value web,,api becomes a three-element string slice with an empty middle
element, contradicting the documented filtering for string slices. -/
theorem C2_string_slice_keeps_empty :
    setSlice c2StrField "web,,api" Kind.str (Value.list []) =
      Except.ok (Value.list [Scalar.str "web", Scalar.str "", Scalar.str "api"]) ∧
    setSlice c2IntField "1,,3,4" (Kind.int 64) (Value.list []) =
      Except.ok (Value.list [Scalar.int 1, Scalar.int 3, Scalar.int 4]) ∧
    setSlice c2IntField "1, ,3" (Kind.int 64) (Value.list []) =
      Except.ok (Value.list [Scalar.int 1, Scalar.int 3]) :=
  ⟨rfl, rfl, rfl⟩

/-- C3 counterexample: a string-keyed map field with an unsupported
value type and a well-formed pair in its raw value makes populateStruct
return an error rather than silently skipping the field. -/
theorem C3_counterexample :
    (populateStruct [("EXTRA", "a:1")] [(c3Field, Value.map [])]).2 =
      some (Err.invalidMapValue "Extra" "a" MapValCause.unsupportedType) := rfl

/-- C3 (amended): a map field with string keys but an unsupported value
kind is never silently skipped by the converter: for every raw value,
setMap returns an error, either the invalid-map-format error (first pair
lacks a colon) or the invalid-map-value error with the unsupported-type
cause. -/
theorem C3_unsupported_map_value_errors (f : Field) (raw : String) (old : Value) :
    (∃ pair, setMap f raw true Kind.unsupported old =
        Except.error (Err.invalidMapFormat f.name pair)) ∨
    (∃ key, setMap f raw true Kind.unsupported old =
        Except.error (Err.invalidMapValue f.name key MapValCause.unsupportedType)) := by
  cases hsp : splitComma raw with
  | nil => exact absurd hsp (splitComma_ne_nil raw)
  | cons p rest =>
    cases hc : splitN2Colon (trimSpace p) with
    | none =>
      left
      exact ⟨p, by simp [setMap, hsp, setMapPairs, hc]⟩
    | some kv =>
      obtain ⟨k0, v0⟩ := kv
      right
      exact ⟨trimSpace k0, by simp [setMap, hsp, setMapPairs, hc, convertMapValue]⟩

/-- C4 code evaluation: a well-formed base-10 literal exceeding the
declared 8-bit map value range is parsed at 64-bit width and silently
wrapped by the conversion instead of rejected: a:256 inserts the value 0
for both signed and unsigned 8-bit map values, while the same literal on
a scalar 8-bit field is a conversion error. -/
theorem C4_map_value_wraparound :
    setMap c4Field "a:256" true (Kind.int 8) (Value.map []) =
      Except.ok (Value.map [("a", Scalar.int 0)]) ∧
    setMap c4Field "a:256" true (Kind.uint 8) (Value.map []) =
      Except.ok (Value.map [("a", Scalar.uint 0)]) ∧
    setValue c4ScalarField "256" (Value.scalar (Scalar.int 0)) =
      Except.error (Err.invalidInt "Lim") :=
  ⟨rfl, rfl, rfl⟩

/-- C5: for a writable field whose env key is present in the source
mapping, the resolved raw value is exactly the mapping value, even when
it is the empty string; a non-required field mapped to the empty string
skips the default and keeps its starting value. -/
theorem C5_explicit_value_wins (envMap : EnvMap) (f : Field) (v : Value) (w : String)
    (h1 : f.envTag ≠ "") (h2 : f.canSet = true)
    (h3 : envMap.lookup f.envTag = some w) :
    resolveValue envMap f = w ∧
    (w = "" → isRequired f = false → processField envMap f v = Except.ok v) := by
  have hcond : ¬(f.envTag = "" ∨ f.canSet = false) := by
    intro hor
    cases hor with
    | inl hl => exact h1 hl
    | inr hr => rw [h2] at hr; cases hr
  have hraw : resolveValue envMap f = w := by
    simp only [resolveValue]
    rw [if_neg hcond, h3]
  refine ⟨hraw, ?_⟩
  intro hw hreq
  simp [processField, hraw, hw, hreq]

/-- C5 witness: concrete field whose env key maps to the empty string
and whose default is nonempty: the raw value is empty and the field
keeps its value. -/
theorem C5_explicit_value_wins_witness :
    resolveValue [("LOG_PATH", "")] c5Field = "" ∧
    processField [("LOG_PATH", "")] c5Field (Value.scalar (Scalar.str "")) =
      Except.ok (Value.scalar (Scalar.str "")) := by
  have h := C5_explicit_value_wins [("LOG_PATH", "")] c5Field
    (Value.scalar (Scalar.str "")) "" (by decide) rfl rfl
  exact ⟨h.1, h.2 rfl rfl⟩

/-- C6: populateStruct fails with MissingRequiredField naming a field
exactly when that field resolves to an empty raw value with its required
flag set: (1) any missing-required failure names such a field; (2) when
every field before a required-and-empty field processes successfully,
populateStruct fails naming precisely that field and every field from it
on keeps its prior value; (3) a required field with a non-empty default
and absent source key never triggers this failure and, for a string
field, succeeds with the default. -/
theorem C6_missing_required (envMap : EnvMap) :
    (∀ (cfg : Config) (n k : String),
      (populateStruct envMap cfg).2 = some (Err.missingRequiredField n k) →
      ∃ p ∈ cfg, p.1.name = n ∧ p.1.envTag = k ∧
        resolveValue envMap p.1 = "" ∧ isRequired p.1 = true) ∧
    (∀ (pre : Config) (f : Field) (v : Value) (post : Config),
      (∀ p ∈ pre, ∃ v2, processField envMap p.1 p.2 = Except.ok v2) →
      resolveValue envMap f = "" → isRequired f = true →
      (populateStruct envMap (pre ++ (f, v) :: post)).2 =
        some (Err.missingRequiredField f.name f.envTag) ∧
      (populateStruct envMap (pre ++ (f, v) :: post)).1.drop pre.length =
        (f, v) :: post) ∧
    (∀ (f : Field) (v : Value),
      f.envTag ≠ "" → f.canSet = true → envMap.lookup f.envTag = none →
      f.defaultTag ≠ "" →
      resolveValue envMap f = f.defaultTag ∧
      processField envMap f v ≠
        Except.error (Err.missingRequiredField f.name f.envTag) ∧
      (f.ftype = FieldType.str →
        processField envMap f v = Except.ok (Value.scalar (Scalar.str f.defaultTag)))) := by
  refine ⟨populateStruct_mrf_mem envMap, ?_, ?_⟩
  · intro pre f v post hpre hraw hreq
    have hpf : processField envMap f v =
        Except.error (Err.missingRequiredField f.name f.envTag) := by
      simp [processField, hraw, hreq]
    obtain ⟨pre2, hlen, heq⟩ := populateStruct_ok_front envMap pre ((f, v) :: post) hpre
    rw [heq, populateStruct_error_head envMap f v post _ hpf]
    refine ⟨rfl, ?_⟩
    rw [← hlen]
    exact List.drop_left pre2 _
  · intro f v h1 h2 h3 h4
    have hcond : ¬(f.envTag = "" ∨ f.canSet = false) := by
      intro hor
      cases hor with
      | inl hl => exact h1 hl
      | inr hr => rw [h2] at hr; cases hr
    have hraw : resolveValue envMap f = f.defaultTag := by
      simp only [resolveValue]
      rw [if_neg hcond, h3]
    refine ⟨hraw, ?_, ?_⟩
    · intro hcontra
      exact h4 (hraw ▸ (processField_mrf envMap f v f.name f.envTag hcontra).2.2.1)
    · intro hty
      simp [processField, hraw, h4, setValue, hty]

/-- C6 witness: concrete three-field struct whose second field is
required with an absent key and no default: populateStruct names it and
leaves it and the following field untouched; a concrete required field
with a default succeeds with the default value. -/
theorem C6_missing_required_witness :
    (populateStruct [("GOOD", "ok")] c6Config).2 =
      some (Err.missingRequiredField "Req" "REQ") ∧
    (populateStruct [("GOOD", "ok")] c6Config).1.drop 1 =
      [(c6ReqField, Value.scalar (Scalar.str "")),
       (c6AfterField, Value.scalar (Scalar.str "keep"))] ∧
    processField [("GOOD", "ok")] c6DefField (Value.scalar (Scalar.str "")) =
      Except.ok (Value.scalar (Scalar.str "fallback")) := by
  have h := C6_missing_required [("GOOD", "ok")]
  have h2 := h.2.1 [(c6GoodField, Value.scalar (Scalar.str ""))] c6ReqField
    (Value.scalar (Scalar.str "")) [(c6AfterField, Value.scalar (Scalar.str "keep"))]
    (by
      intro p hp
      simp only [List.mem_singleton] at hp
      subst hp
      exact ⟨Value.scalar (Scalar.str "ok"), rfl⟩)
    rfl rfl
  have h3 := (h.2.2 c6DefField (Value.scalar (Scalar.str ""))
    (by decide) rfl rfl (by decide)).2.2 rfl
  exact ⟨h2.1, h2.2, h3⟩

/-- C7: the literal 256 overflows an 8-bit scalar integer field both
signed and unsigned: conversion fails with the invalid-int or
invalid-uint error and populateStruct leaves the field at its prior
value instead of wrapping around. -/
theorem C7_scalar_overflow :
    setValue c7IntField "256" (Value.scalar (Scalar.int 0)) =
      Except.error (Err.invalidInt "Small") ∧
    setValue c7UintField "256" (Value.scalar (Scalar.uint 0)) =
      Except.error (Err.invalidUint "USmall") ∧
    populateStruct [("SMALL", "256")] [(c7IntField, Value.scalar (Scalar.int 0))] =
      ([(c7IntField, Value.scalar (Scalar.int 0))], some (Err.invalidInt "Small")) ∧
    populateStruct [("USMALL", "256")] [(c7UintField, Value.scalar (Scalar.uint 0))] =
      ([(c7UintField, Value.scalar (Scalar.uint 0))], some (Err.invalidUint "USmall")) :=
  ⟨rfl, rfl, rfl, rfl⟩

/-- C8: every successfully built map binds each key at most once (its
key list is duplicate-free), and on the duplicate-key example the last
occurrence in left-to-right order wins while populateStruct succeeds. -/
theorem C8_duplicate_keys :
    (∀ (f : Field) (raw : String) (vk : Kind) (old : Value)
        (m : List (String × Scalar)),
      setMap f raw true vk old = Except.ok (Value.map m) →
      (m.map Prod.fst).Nodup) ∧
    setMap c8Field "key1:value1,key1:value2,key2:value3" true Kind.str (Value.map []) =
      Except.ok (Value.map [("key1", Scalar.str "value2"), ("key2", Scalar.str "value3")]) ∧
    (populateStruct [("SETTINGS", "key1:value1,key1:value2,key2:value3")]
        [(c8Field, Value.map [])]).2 = none := by
  refine ⟨?_, rfl, rfl⟩
  intro f raw vk old m h
  rw [setMap, if_neg (by decide : ¬(true = false))] at h
  split at h
  · exact absurd h (by simp)
  · rename_i mm heq
    simp only [Except.ok.injEq, Value.map.injEq] at h
    subst h
    exact setMapPairs_keys_nodup f.name vk _ [] _ (by simp) heq

/-- C8 witness: the duplicate-free-keys consequence instantiated on the
concrete duplicate-key example. -/
theorem C8_duplicate_keys_witness :
    (([("key1", Scalar.str "value2"), ("key2", Scalar.str "value3")]).map Prod.fst).Nodup :=
  C8_duplicate_keys.1 c8Field "key1:value1,key1:value2,key2:value3" Kind.str
    (Value.map []) _ rfl

/-- C9: when the conversion of a slice or map field fails, populateStruct
reports the error and leaves that field and every later one at their
prior values: the partially built collection is never written. -/
theorem C9_conversion_atomic (envMap : EnvMap) (pre : Config) (f : Field) (v : Value)
    (post : Config) (e : Err)
    (hty : (∃ k, f.ftype = FieldType.slice k) ∨
      (∃ b k, f.ftype = FieldType.mapTy b k))
    (hpre : ∀ p ∈ pre, ∃ v2, processField envMap p.1 p.2 = Except.ok v2)
    (herr : processField envMap f v = Except.error e) :
    (populateStruct envMap (pre ++ (f, v) :: post)).2 = some e ∧
    (populateStruct envMap (pre ++ (f, v) :: post)).1.drop pre.length =
      (f, v) :: post := by
  obtain ⟨pre2, hlen, heq⟩ := populateStruct_ok_front envMap pre ((f, v) :: post) hpre
  rw [heq, populateStruct_error_head envMap f v post e herr]
  refine ⟨rfl, ?_⟩
  rw [← hlen]
  exact List.drop_left pre2 _

/-- C9 witness: a concrete integer-slice field with a malformed second
element keeps its prior value while populateStruct reports the indexed
element error. -/
theorem C9_conversion_atomic_witness :
    (populateStruct [("NUMS", "1,x")] [(c9Field, Value.list [Scalar.int 9])]).2 =
      some (Err.invalidIntInSlice "Nums" 1) ∧
    (populateStruct [("NUMS", "1,x")] [(c9Field, Value.list [Scalar.int 9])]).1.drop 0 =
      [(c9Field, Value.list [Scalar.int 9])] :=
  C9_conversion_atomic [("NUMS", "1,x")] [] c9Field (Value.list [Scalar.int 9]) []
    (Err.invalidIntInSlice "Nums" 1) (Or.inl ⟨Kind.int 64, rfl⟩)
    (by intro p hp; simp at hp) rfl

/-- C10: a field is required exactly when its required tag is the exact
lowercase string true; any other tag value leaves the field
non-required, so an empty resolved raw value is then a successful no-op
rather than a missing-required failure. -/
theorem C10_required_tag_exact (f : Field) (envMap : EnvMap) (v : Value) :
    (isRequired f = true ↔ f.requiredTag = "true") ∧
    (f.requiredTag ≠ "true" → resolveValue envMap f = "" →
      processField envMap f v = Except.ok v) := by
  constructor
  · simp [isRequired]
  · intro hne hraw
    have hreq : isRequired f = false := by
      simp [isRequired, hne]
    simp [processField, hraw, hreq]

/-- C10 witness: the uppercase tag TRUE is not recognized as required,
so the field with an empty resolved raw value is skipped successfully. -/
theorem C10_required_tag_exact_witness :
    processField [] c10Field (Value.scalar (Scalar.str "w")) =
      Except.ok (Value.scalar (Scalar.str "w")) :=
  (C10_required_tag_exact c10Field [] (Value.scalar (Scalar.str "w"))).2
    (by decide) rfl

end Envload
